import Mathlib

/-!
Verification of the request-signing and certificate-retrieval core of the
nosql-go-sdk (package `iam`).  The Go source `http_signer.go` is shallowly
embedded below: HTTP requests become explicit records, the `net/http` header
map becomes an association list with case-insensitive get/set (Go's
`http.Header.Get`/`Set` canonicalise keys, so lookups are case-insensitive),
machine integers become `Int`/`Nat`, fallible operations return
`Except`/`Outcome`, and the external crypto primitives (`crypto/sha256`,
`crypto/rsa.SignPKCS1v15`) are parameters of the functions that use them
(PKCS#1 v1.5 signing is deterministic, so a function parameter is a faithful
model).  A nil-interface method call in Go panics; the `Outcome.nilDeref`
constructor records that outcome.
-/

namespace IAM

/-- A byte is modelled as a `Nat` (values below 256 in all uses). -/
abbrev Byte := Nat

/-- UTF-8 encoding of one character, as Go's `[]byte(string)` produces. -/
def charUTF8 (c : Char) : List Byte :=
  let n := c.toNat
  if n < 128 then [n]
  else if n < 2048 then [192 + n / 64, 128 + n % 64]
  else if n < 65536 then [224 + n / 4096, 128 + n / 64 % 64, 128 + n % 64]
  else [240 + n / 262144, 128 + n / 4096 % 64, 128 + n / 64 % 64, 128 + n % 64]

/-- The bytes of a Go string (`[]byte(s)`), i.e. its UTF-8 encoding. -/
def strBytes (s : String) : List Byte :=
  (s.data.map charUTF8).flatten

/-- The base64 standard alphabet (`encoding/base64.StdEncoding`). -/
def base64Chars : List Char :=
  "ABCDEFGHIJKLMNOPQRSTUVWXYZabcdefghijklmnopqrstuvwxyz0123456789+/".data

/-- Character of the base64 standard alphabet at index `n` (`n < 64`). -/
def b64char (n : Nat) : Char :=
  base64Chars.getD n 'A'

/-- `encoding/base64.StdEncoding.EncodeToString`: standard base64 with
`=` padding, processing the input three bytes at a time. -/
def base64Encode : List Byte → String
  | [] => ""
  | [b0] =>
    String.mk [b64char (b0 / 4), b64char (b0 % 4 * 16), '=', '=']
  | [b0, b1] =>
    String.mk [b64char (b0 / 4), b64char (b0 % 4 * 16 + b1 / 16),
               b64char (b1 % 16 * 4), '=']
  | b0 :: b1 :: b2 :: rest =>
    String.mk [b64char (b0 / 4), b64char (b0 % 4 * 16 + b1 / 16),
               b64char (b1 % 16 * 4 + b2 / 64), b64char (b2 % 64)]
      ++ base64Encode rest

/-- `strings.ToLower` (ASCII case mapping, applied per character; header
names and methods are ASCII).  Defined by mapping over the character list
so that it reduces structurally. -/
def lowerStr (s : String) : String :=
  String.mk (s.data.map Char.toLower)

/-- Go `http.Header` as an association list; `headerGet` performs the
case-insensitive lookup `http.Header.Get` provides (missing header gives
the empty string, as in Go). -/
def headerGet : List (String × String) → String → String
  | [], _ => ""
  | p :: rest, key =>
    if lowerStr p.1 = lowerStr key then p.2 else headerGet rest key

/-- Go `http.Header.Set`: replaces any entry with the same
(case-insensitive) key. -/
def headerSet (hs : List (String × String)) (key val : String) :
    List (String × String) :=
  (key, val) :: hs.filter (fun p => lowerStr p.1 != lowerStr key)

/-- The body of an `http.Request`: Go distinguishes a `nil` body, the
`http.NoBody` sentinel, a readable stream (carrying the bytes it yields),
and a stream whose read fails. -/
inductive Body where
  | nil : Body
  | noBody : Body
  | stream : List Byte → Body
  | badStream : Body
deriving DecidableEq, Repr

/-- The part of `http.Request` the signer reads and writes: method, the
URL's host and `RequestURI()` (path-and-query), the request's `Host`
field, the header map, the body and the `ContentLength` field. -/
structure HttpRequest where
  method : String
  urlHost : String
  urlRequestURI : String
  host : String
  headers : List (String × String)
  body : Body
  contentLength : Int
deriving DecidableEq, Repr

/-- Result of a Go call that can succeed, return an error value, or panic
by calling a method on a nil interface. -/
inductive Outcome (α : Type) where
  | ok : α → Outcome α
  | error : String → Outcome α
  | nilDeref : Outcome α
deriving DecidableEq, Repr

/-- An RSA private key; its arithmetic content is irrelevant to the signer
logic, which only passes it to the external `rsa.SignPKCS1v15`. -/
structure RSAPrivateKey where
  modulus : Nat
  pubExp : Nat
  privExp : Nat
deriving DecidableEq, Repr

/-- The `KeyProvider` interface consumed by the signer: each method call's
result is a field (the provider is an external collaborator and the claims
hold it fixed during a `Sign` call). -/
structure KeyProvider where
  privateRSAKey : Except String RSAPrivateKey
  keyID : Except String String
  expirationTime : Int

/-- `ociRequestSigner`: the signer's configuration.  `KeyProvider := none`
models a Go signer whose `KeyProvider` interface field is nil. -/
structure ociRequestSigner where
  KeyProvider : Option KeyProvider
  GenericHeaders : List String
  BodyHeaders : List String
  ShouldHashBody : HttpRequest → Bool

/-- `const signerVersion = "1"`. -/
def signerVersion : String := "1"

/-- `defaultGenericHeaders`. -/
def defaultGenericHeaders : List String := ["date", "(request-target)", "host"]

/-- `defaultDelegationHeaders`. -/
def defaultDelegationHeaders : List String :=
  ["date", "(request-target)", "host", "opc-obo-token"]

/-- `defaultBodyHeaders`. -/
def defaultBodyHeaders : List String :=
  ["content-length", "content-type", "x-content-sha256"]

/-- `defaultBodyHashPredicate`: body is hashed if the marker header
`X-Nosql-Hash-Body` equals "true", otherwise exactly for POST, PUT and
PATCH requests. -/
def defaultBodyHashPredicate (r : HttpRequest) : Bool :=
  if headerGet r.headers "X-Nosql-Hash-Body" == "true" then true
  else r.method == "POST" || r.method == "PUT" || r.method == "PATCH"

/-- The predicate installed by `RequestSignerExcludeBody` and
`DelegationRequestSignerExcludeBody`: hash only when explicitly told to
via the marker header. -/
def excludeBodyHashPredicate (r : HttpRequest) : Bool :=
  headerGet r.headers "X-Nosql-Hash-Body" == "true"

/-- `RequestSigner`. -/
def RequestSigner (provider : Option KeyProvider)
    (genericHeaders bodyHeaders : List String) : ociRequestSigner :=
  { KeyProvider := provider, GenericHeaders := genericHeaders,
    BodyHeaders := bodyHeaders, ShouldHashBody := defaultBodyHashPredicate }

/-- `DefaultRequestSigner`. -/
def DefaultRequestSigner (provider : Option KeyProvider) : ociRequestSigner :=
  RequestSigner provider defaultGenericHeaders defaultBodyHeaders

/-- `RequestSignerWithBodyHashingPredicate`. -/
def RequestSignerWithBodyHashingPredicate (provider : Option KeyProvider)
    (genericHeaders bodyHeaders : List String)
    (shouldHashBody : HttpRequest → Bool) : ociRequestSigner :=
  { KeyProvider := provider, GenericHeaders := genericHeaders,
    BodyHeaders := bodyHeaders, ShouldHashBody := shouldHashBody }

/-- `RequestSignerExcludeBody`. -/
def RequestSignerExcludeBody (provider : Option KeyProvider) : ociRequestSigner :=
  RequestSignerWithBodyHashingPredicate provider defaultGenericHeaders
    defaultBodyHeaders excludeBodyHashPredicate

/-- `DelegationRequestSignerExcludeBody`. -/
def DelegationRequestSignerExcludeBody (provider : Option KeyProvider) :
    ociRequestSigner :=
  RequestSignerWithBodyHashingPredicate provider defaultDelegationHeaders
    defaultBodyHeaders excludeBodyHashPredicate

/-- `getSigningHeaders`: generic headers, then body headers iff the
predicate holds. -/
def getSigningHeaders (signer : ociRequestSigner) (r : HttpRequest) :
    List String :=
  signer.GenericHeaders ++
    (if signer.ShouldHashBody r then signer.BodyHeaders else [])

/-- `ExpirationTime`: `time.Now().Add(-time.Second)` when no provider is
bound (modelled with the current time `now` as an explicit parameter and
seconds as the unit), otherwise the provider's expiration time. -/
def ExpirationTime (signer : ociRequestSigner) (now : Int) : Int :=
  match signer.KeyProvider with
  | none => now - 1
  | some kp => kp.expirationTime

/-- `getRequestTarget`: lower-cased method, a space, and
`request.URL.RequestURI()`. -/
def getRequestTarget (r : HttpRequest) : String :=
  lowerStr r.method ++ " " ++ r.urlRequestURI

/-- The body of the loop in `getSigningString`: one line
`"<name>: <value>"` for a signing-header name. -/
def signingLine (r : HttpRequest) (part : String) : String :=
  let p := lowerStr part
  let value :=
    if p = "(request-target)" then getRequestTarget r
    else if p = "host" then
      (if r.urlHost.length = 0 then r.host else r.urlHost)
    else headerGet r.headers p
  p ++ ": " ++ value

/-- `getSigningString`: the canonical signing string. -/
def getSigningString (signer : ociRequestSigner) (r : HttpRequest) : String :=
  String.intercalate "\n" ((getSigningHeaders signer r).map (signingLine r))

/-- `drainBody`: on success returns two bodies yielding the same bytes
(the Go code buffers the stream and returns two readers over the buffer);
`http.NoBody` is preserved.  On a read failure the error is reported and
(in `GetBodyHash`) the request keeps its original body.  A `nil` body
never reaches `drainBody` (`GetBodyHash` checks it first). -/
def drainBody : Body → Except String (Body × Body)
  | Body.noBody => Except.ok (Body.noBody, Body.noBody)
  | Body.stream bs => Except.ok (Body.stream bs, Body.stream bs)
  | Body.badStream => Except.error "read failure"
  | Body.nil => Except.error "nil body"

/-- `io.ReadAll` on a drained reader (reading a buffered reader cannot
fail). -/
def bodyReadAll : Body → List Byte
  | Body.stream bs => bs
  | _ => []

/-- `hashAndEncode`: base64 standard encoding of the SHA-256 digest.  The
digest function is the `sha` parameter (external `crypto/sha256`). -/
def hashAndEncode (sha : List Byte → List Byte) (data : List Byte) : String :=
  base64Encode (sha data)

/-- `GetBodyHash`: returns the base64 SHA-256 hash of the body and the
request as mutated by the call (content-length header and `ContentLength`
field set; body replaced by the re-readable drained copy). -/
def GetBodyHash (sha : List Byte → List Byte) (r : HttpRequest) :
    Except String String × HttpRequest :=
  match r.body with
  | Body.nil =>
    (Except.ok (hashAndEncode sha []),
      { r with contentLength := 0,
               headers := headerSet r.headers "Content-Length" "0" })
  | b =>
    match drainBody b with
    | Except.error e =>
      (Except.error ("can not read body of request while calculating body hash: " ++ e), r)
    | Except.ok (r1, r2) =>
      let data := bodyReadAll r1
      (Except.ok (hashAndEncode sha data),
        { r with body := r2,
                 contentLength := (data.length : Int),
                 headers := headerSet r.headers "Content-Length" (toString data.length) })

/-- `calculateHashOfBody`: computes the body hash and installs it in the
`X-Content-SHA256` header. -/
def calculateHashOfBody (sha : List Byte → List Byte) (r : HttpRequest) :
    Except String Unit × HttpRequest :=
  match GetBodyHash sha r with
  | (Except.error e, r1) => (Except.error e, r1)
  | (Except.ok h, r1) =>
    (Except.ok (), { r1 with headers := headerSet r1.headers "X-Content-SHA256" h })

/-- `computeSignature`: SHA-256 of the canonical string, RSA PKCS#1 v1.5
signature, base64-encoded.  `rsaSign` is the external
`rsa.SignPKCS1v15` (deterministic for v1.5).  A nil `KeyProvider` is
dereferenced here without a check, which in Go panics. -/
def computeSignature (sha : List Byte → List Byte)
    (rsaSign : RSAPrivateKey → List Byte → Except String (List Byte))
    (signer : ociRequestSigner) (r : HttpRequest) : Outcome String :=
  let signingString := getSigningString signer r
  let hashed := sha (strBytes signingString)
  match signer.KeyProvider with
  | none => Outcome.nilDeref
  | some kp =>
    match kp.privateRSAKey with
    | Except.error e => Outcome.error e
    | Except.ok key =>
      match rsaSign key hashed with
      | Except.error e =>
        Outcome.error ("can not compute signature while signing the request " ++ e ++ ": ")
      | Except.ok sig => Outcome.ok (base64Encode sig)

/-- Step 1 of `Sign`: run `calculateHashOfBody` when the predicate holds. -/
def signStep1 (sha : List Byte → List Byte) (signer : ociRequestSigner)
    (r : HttpRequest) : Outcome Unit × HttpRequest :=
  if signer.ShouldHashBody r then
    match calculateHashOfBody sha r with
    | (Except.error e, r1) => (Outcome.error e, r1)
    | (Except.ok _, r1) => (Outcome.ok (), r1)
  else (Outcome.ok (), r)

/-- `Sign`: body hash step, signature computation, key-id retrieval, and
installation of the `Authorization` header.  Returns the outcome together
with the request as mutated by the call. -/
def Sign (sha : List Byte → List Byte)
    (rsaSign : RSAPrivateKey → List Byte → Except String (List Byte))
    (signer : ociRequestSigner) (r : HttpRequest) :
    Outcome Unit × HttpRequest :=
  match signStep1 sha signer r with
  | (Outcome.error e, r1) => (Outcome.error e, r1)
  | (Outcome.nilDeref, r1) => (Outcome.nilDeref, r1)
  | (Outcome.ok _, r1) =>
    match computeSignature sha rsaSign signer r1 with
    | Outcome.error e => (Outcome.error e, r1)
    | Outcome.nilDeref => (Outcome.nilDeref, r1)
    | Outcome.ok signature =>
      let signingHeaders := String.intercalate " " (getSigningHeaders signer r1)
      match signer.KeyProvider with
      | none => (Outcome.nilDeref, r1)
      | some kp =>
        match kp.keyID with
        | Except.error e => (Outcome.error e, r1)
        | Except.ok kid =>
          let authValue := "Signature version=\"" ++ signerVersion ++
            "\",headers=\"" ++ signingHeaders ++ "\",keyId=\"" ++ kid ++
            "\",algorithm=\"rsa-sha256\",signature=\"" ++ signature ++ "\""
          (Outcome.ok (),
            { r1 with headers := headerSet r1.headers "Authorization" authValue })

/-- Modelled from the spec: the Credential Material snapshot stored by a
certificate retriever (spec section 3) — certificate PEM bytes, the parsed
certificate, and optionally the private-key PEM bytes and parsed key.  The
retriever implementation (`certificate_retriever.go`) is not among the
provided sources; only its tests are, so the parsed-certificate and
parsed-key types are parameters `C` and `K`. -/
structure CredentialSnapshot (C K : Type) where
  certificatePemRaw : List Byte
  certificate : C
  privateKeyPemRaw : Option (List Byte)
  privateKey : Option K

/-- Modelled from the spec: the state of the URL-based certificate
retriever — whether a private-key URL was configured, and the last
successfully stored snapshot (none before the first successful refresh). -/
structure UrlRetrieverState (C K : Type) where
  hasKeyUrl : Bool
  snapshot : Option (CredentialSnapshot C K)

/-- Modelled from the spec: what the two configured URLs return during one
`Refresh` call — the certificate fetch and the private-key fetch each
yield bytes or a transport/status error. -/
structure FetchEnv where
  certFetch : Except String (List Byte)
  keyFetch : Except String (List Byte)

/-- Accessor `CertificatePemRaw` (absent before a successful refresh). -/
def CertificatePemRaw {C K : Type} (st : UrlRetrieverState C K) :
    Option (List Byte) :=
  st.snapshot.map (fun s => s.certificatePemRaw)

/-- Accessor `Certificate`. -/
def Certificate {C K : Type} (st : UrlRetrieverState C K) : Option C :=
  st.snapshot.map (fun s => s.certificate)

/-- Accessor `PrivateKeyPemRaw`. -/
def PrivateKeyPemRaw {C K : Type} (st : UrlRetrieverState C K) :
    Option (List Byte) :=
  st.snapshot.bind (fun s => s.privateKeyPemRaw)

/-- Accessor `PrivateKey`. -/
def PrivateKey {C K : Type} (st : UrlRetrieverState C K) : Option K :=
  st.snapshot.bind (fun s => s.privateKey)

/-- Modelled from the spec: `Refresh` of the URL-based retriever
(spec section 4.1, URL-based variant, steps 1–4).  `parseCert` and
`parseKey` are the PEM/X.509/PKCS#1 parsers (external).  Fetch the
certificate; on success parse it; if a key URL is configured fetch and
parse the key likewise; only when every configured fetch and parse
succeeds is the stored snapshot replaced, as one unit; any failure
returns an error and leaves the state untouched. -/
def Refresh {C K : Type} (parseCert : List Byte → Except String C)
    (parseKey : List Byte → Except String K) (env : FetchEnv)
    (st : UrlRetrieverState C K) :
    Except String Unit × UrlRetrieverState C K :=
  match env.certFetch with
  | Except.error e => (Except.error e, st)
  | Except.ok certBytes =>
    match parseCert certBytes with
    | Except.error e => (Except.error e, st)
    | Except.ok cert =>
      if st.hasKeyUrl then
        match env.keyFetch with
        | Except.error e => (Except.error e, st)
        | Except.ok keyBytes =>
          match parseKey keyBytes with
          | Except.error e => (Except.error e, st)
          | Except.ok key =>
            (Except.ok (),
              { st with snapshot := some (CredentialSnapshot.mk certBytes cert (some keyBytes) (some key)) })
      else
        (Except.ok (), { st with snapshot := some (CredentialSnapshot.mk certBytes cert none none) })

/-- The reference construction of the canonical signing string, written
from the spec's words (section 4.4, step 3): for each name of the signing
header list, in configured order, lower-case the name and emit the line
for it — `(request-target)` renders as the lower-cased method, a space
and the path-and-query; `host` takes the URL host, falling back to the
request's `Host` field when the URL host is empty; every other name is
resolved case-insensitively in the request headers, a missing header
contributing an empty value. -/
def specLines (r : HttpRequest) : List String → List String
  | [] => []
  | name :: rest =>
    (lowerStr name ++ ": " ++
      (if lowerStr name = "(request-target)" then
        lowerStr r.method ++ " " ++ r.urlRequestURI
      else if lowerStr name = "host" then
        (if r.urlHost = "" then r.host else r.urlHost)
      else headerGet r.headers (lowerStr name))) :: specLines r rest

/-- The reference canonical signing string: lines for the generic headers
followed by the body headers exactly when the body-hash predicate holds,
joined by single newlines with no trailing newline. -/
def specCanonicalString (signer : ociRequestSigner) (r : HttpRequest) : String :=
  String.intercalate "\n"
    (specLines r
      (if signer.ShouldHashBody r then
        signer.GenericHeaders ++ signer.BodyHeaders
      else signer.GenericHeaders))

/-! ### Helper lemmas -/

theorem headerGet_filter_ne (hs : List (String × String)) (n k : String)
    (h : lowerStr n ≠ lowerStr k) :
    headerGet (hs.filter (fun p => lowerStr p.1 != lowerStr n)) k =
      headerGet hs k := by
  induction hs with
  | nil => rfl
  | cons p rest ih =>
    by_cases hp : lowerStr p.1 = lowerStr n
    · have hpk : lowerStr p.1 ≠ lowerStr k := by rw [hp]; exact h
      have hf : List.filter (fun q => lowerStr q.1 != lowerStr n) (p :: rest) =
          List.filter (fun q => lowerStr q.1 != lowerStr n) rest := by
        simp [List.filter_cons, hp]
      rw [hf, ih]
      show headerGet rest k = headerGet (p :: rest) k
      simp [headerGet, hpk]
    · have hf : List.filter (fun q => lowerStr q.1 != lowerStr n) (p :: rest) =
          p :: List.filter (fun q => lowerStr q.1 != lowerStr n) rest := by
        simp [List.filter_cons, hp]
      rw [hf]
      by_cases hk : lowerStr p.1 = lowerStr k
      · simp [headerGet, hk]
      · simp [headerGet, hk, ih]

theorem headerGet_headerSet (hs : List (String × String)) (n v k : String) :
    headerGet (headerSet hs n v) k =
      if lowerStr n = lowerStr k then v else headerGet hs k := by
  unfold headerSet
  by_cases h : lowerStr n = lowerStr k
  · simp [headerGet, h]
  · rw [if_neg h]
    show headerGet ((n, v) :: _) k = headerGet hs k
    simp only [headerGet]
    rw [if_neg h]
    exact headerGet_filter_ne hs n k h

theorem headerGet_headerSet_same (hs : List (String × String)) (n v : String) :
    headerGet (headerSet hs n v) n = v := by
  simp [headerGet_headerSet]

theorem string_length_eq_zero (s : String) : s.length = 0 ↔ s = "" := by
  constructor
  · intro h
    cases s with
    | mk data =>
      cases data with
      | nil => rfl
      | cons c cs => simp [String.length] at h
  · intro h
    rw [h]
    rfl

/-! ### Claim theorems -/

/-- C1: for the URL-based certificate retriever, `Refresh` is
failure-atomic — whenever it returns an error (a failed certificate
fetch or parse, or a failed private-key fetch or parse after the
certificate fetch succeeded, possibly with new, different bytes), the
stored state is exactly the state before the call, so all four accessors
keep returning the snapshot of the last successful refresh (or absent if
none); no newly fetched data leaks into the stored state. -/
theorem refresh_failure_atomic {C K : Type}
    (parseCert : List Byte → Except String C)
    (parseKey : List Byte → Except String K)
    (env : FetchEnv) (st : UrlRetrieverState C K) (e : String)
    (h : (Refresh parseCert parseKey env st).1 = Except.error e) :
    (Refresh parseCert parseKey env st).2 = st ∧
    CertificatePemRaw (Refresh parseCert parseKey env st).2 =
      CertificatePemRaw st ∧
    Certificate (Refresh parseCert parseKey env st).2 = Certificate st ∧
    PrivateKeyPemRaw (Refresh parseCert parseKey env st).2 =
      PrivateKeyPemRaw st ∧
    PrivateKey (Refresh parseCert parseKey env st).2 = PrivateKey st := by
  have hst : (Refresh parseCert parseKey env st).2 = st := by
    unfold Refresh at h ⊢
    cases hcf : env.certFetch with
    | error e1 => simp [hcf]
    | ok certBytes =>
      simp only [hcf] at h ⊢
      cases hpc : parseCert certBytes with
      | error e1 => simp [hpc]
      | ok cert =>
        simp only [hpc] at h ⊢
        by_cases hk : st.hasKeyUrl
        · simp only [hk, if_true] at h ⊢
          cases hkf : env.keyFetch with
          | error e1 => simp [hkf]
          | ok keyBytes =>
            simp only [hkf] at h ⊢
            cases hpk : parseKey keyBytes with
            | error e1 => simp [hpk]
            | ok key => simp [hpk] at h
        · simp [hk] at h
  exact ⟨hst, by rw [hst], by rw [hst], by rw [hst], by rw [hst]⟩

/-- Witness fixtures for the retriever claims: a prior snapshot
(certA, keyA) and a refresh environment in which the certificate fetch
succeeds with different bytes but the key fetch fails. -/
def parseCertW : List Byte → Except String Nat := fun _ => Except.ok 1

/-- Witness key parser. -/
def parseKeyW : List Byte → Except String Nat := fun _ => Except.ok 2

/-- Witness prior state: last successful refresh stored cert bytes [1]
and key bytes [2]. -/
def stW : UrlRetrieverState Nat Nat :=
  { hasKeyUrl := true,
    snapshot := some (CredentialSnapshot.mk [1] 1 (some [2]) (some 2)) }

/-- Witness environment: the certificate fetch succeeds with new,
different bytes [9, 9]; the private-key fetch fails. -/
def envW : FetchEnv :=
  { certFetch := Except.ok [9, 9], keyFetch := Except.error "500 internal server error" }

/-- Witness for C1: at the concrete scenario of the failure-atomicity
test, `Refresh` reports the key-fetch error and the state and all four
accessors are untouched. -/
theorem refresh_failure_atomic_witness :
    (Refresh parseCertW parseKeyW envW stW).1 =
      Except.error "500 internal server error" ∧
    (Refresh parseCertW parseKeyW envW stW).2 = stW ∧
    CertificatePemRaw (Refresh parseCertW parseKeyW envW stW).2 = some [1] ∧
    PrivateKeyPemRaw (Refresh parseCertW parseKeyW envW stW).2 = some [2] :=
  ⟨rfl,
   (refresh_failure_atomic parseCertW parseKeyW envW stW
      "500 internal server error" rfl).1,
   ((refresh_failure_atomic parseCertW parseKeyW envW stW
      "500 internal server error" rfl).2.1).trans rfl,
   ((refresh_failure_atomic parseCertW parseKeyW envW stW
      "500 internal server error" rfl).2.2.2.1).trans rfl⟩

/-- C9: `ExpirationTime` on a signer with no Key Provider bound returns
`now - 1` second, an already-expired timestamp strictly before the
current time, and with a provider bound it returns exactly the
provider's expiration time (it is a total function — no error value). -/
theorem expirationTime_spec (signer : ociRequestSigner) (now : Int) :
    (signer.KeyProvider = none →
      ExpirationTime signer now = now - 1 ∧ ExpirationTime signer now < now) ∧
    (∀ kp, signer.KeyProvider = some kp →
      ExpirationTime signer now = kp.expirationTime) := by
  constructor
  · intro h
    refine ⟨by simp [ExpirationTime, h], ?_⟩
    simp only [ExpirationTime, h]
    omega
  · intro kp h
    simp [ExpirationTime, h]

/-- Witness key provider with expiration time 42. -/
def kpExpW : KeyProvider :=
  { privateRSAKey := Except.ok (RSAPrivateKey.mk 3 5 7),
    keyID := Except.ok "ocid1.key", expirationTime := 42 }

/-- Witness signer with no key provider. -/
def signerNilW : ociRequestSigner :=
  { KeyProvider := none, GenericHeaders := defaultGenericHeaders,
    BodyHeaders := defaultBodyHeaders, ShouldHashBody := fun _ => false }

/-- Witness signer bound to `kpExpW`. -/
def signerExpW : ociRequestSigner :=
  { KeyProvider := some kpExpW, GenericHeaders := defaultGenericHeaders,
    BodyHeaders := defaultBodyHeaders, ShouldHashBody := fun _ => false }

/-- Witness for C9: with no provider the result at time 5 is strictly
before 5; with `kpExpW` bound it is exactly 42. -/
theorem expirationTime_spec_witness :
    ExpirationTime signerNilW 5 < 5 ∧ ExpirationTime signerExpW 5 = 42 :=
  ⟨((expirationTime_spec signerNilW 5).1 rfl).2,
   ((expirationTime_spec signerExpW 5).2 kpExpW rfl).trans rfl⟩

/-- C7: the marker header `X-Nosql-Hash-Body` with value "true" forces
body hashing and its absence suppresses it for the weak signers: the
default predicate holds exactly when the method is POST, PUT or PATCH or
the marker header equals "true"; the predicates of
`RequestSignerExcludeBody` and `DelegationRequestSignerExcludeBody` hold
exactly when the marker header equals "true". -/
theorem body_hash_predicates (r : HttpRequest) (p : Option KeyProvider) :
    (defaultBodyHashPredicate r = true ↔
      ((r.method = "POST" ∨ r.method = "PUT" ∨ r.method = "PATCH") ∨
        headerGet r.headers "X-Nosql-Hash-Body" = "true")) ∧
    ((RequestSignerExcludeBody p).ShouldHashBody r = true ↔
      headerGet r.headers "X-Nosql-Hash-Body" = "true") ∧
    ((DelegationRequestSignerExcludeBody p).ShouldHashBody r = true ↔
      headerGet r.headers "X-Nosql-Hash-Body" = "true") := by
  refine ⟨?_, ?_, ?_⟩
  · by_cases h : headerGet r.headers "X-Nosql-Hash-Body" = "true"
    · simp [defaultBodyHashPredicate, h]
    · simp [defaultBodyHashPredicate, h]
      tauto
  · simp [RequestSignerExcludeBody, RequestSignerWithBodyHashingPredicate,
      excludeBodyHashPredicate]
  · simp [DelegationRequestSignerExcludeBody,
      RequestSignerWithBodyHashingPredicate, excludeBodyHashPredicate]

/-- `GetBodyHash` on a request with a readable body stream, fully
evaluated. -/
theorem getBodyHash_stream (sha : List Byte → List Byte) (r : HttpRequest)
    (bs : List Byte) (h : r.body = Body.stream bs) :
    GetBodyHash sha r =
      (Except.ok (base64Encode (sha bs)),
        { r with body := Body.stream bs,
                 contentLength := (bs.length : Int),
                 headers := headerSet r.headers "Content-Length" (toString bs.length) }) := by
  unfold GetBodyHash
  rw [h]
  rfl

/-- `GetBodyHash` on a request with a nil body, fully evaluated. -/
theorem getBodyHash_nil (sha : List Byte → List Byte) (r : HttpRequest)
    (h : r.body = Body.nil) :
    GetBodyHash sha r =
      (Except.ok (base64Encode (sha [])),
        { r with contentLength := 0,
                 headers := headerSet r.headers "Content-Length" "0" }) := by
  unfold GetBodyHash
  rw [h]
  rfl

/-- C4: `GetBodyHash` returns the standard base64 encoding of the SHA-256
digest of the body bytes and sets both the `Content-Length` header and
the request's `ContentLength` field to the measured byte length; with no
body it sets content-length to 0 and returns the hash of the empty byte
sequence; and `calculateHashOfBody` (the signer's body-hash step)
installs the returned value in the `X-Content-SHA256` header. -/
theorem getBodyHash_spec (sha : List Byte → List Byte) (r : HttpRequest) :
    (r.body = Body.nil →
      GetBodyHash sha r =
        (Except.ok (base64Encode (sha [])),
          { r with contentLength := 0,
                   headers := headerSet r.headers "Content-Length" "0" })) ∧
    (∀ bs, r.body = Body.stream bs →
      GetBodyHash sha r =
        (Except.ok (base64Encode (sha bs)),
          { r with body := Body.stream bs,
                   contentLength := (bs.length : Int),
                   headers := headerSet r.headers "Content-Length" (toString bs.length) }) ∧
      headerGet (calculateHashOfBody sha r).2.headers "X-Content-SHA256" =
        base64Encode (sha bs)) := by
  constructor
  · intro h
    exact getBodyHash_nil sha r h
  · intro bs h
    refine ⟨getBodyHash_stream sha r bs h, ?_⟩
    unfold calculateHashOfBody
    rw [getBodyHash_stream sha r bs h]
    exact headerGet_headerSet_same _ _ _

/-- Witness dummy SHA-256 (the digest function is external; any function
instantiates it). -/
def shaW : List Byte → List Byte := fun l => [l.length % 256]

/-- Witness request with body bytes [10, 20, 30]. -/
def reqStreamW : HttpRequest :=
  { method := "POST", urlHost := "example.com", urlRequestURI := "/v1/x",
    host := "", headers := [("Content-Type", "application/json")],
    body := Body.stream [10, 20, 30], contentLength := 0 }

/-- Witness for C4: on `reqStreamW` the hash is
`base64Encode (shaW [10, 20, 30])`, content-length becomes 3, and the
hash is installed in `X-Content-SHA256`. -/
theorem getBodyHash_spec_witness :
    GetBodyHash shaW reqStreamW =
      (Except.ok (base64Encode (shaW [10, 20, 30])),
        { reqStreamW with body := Body.stream [10, 20, 30],
                          contentLength := (3 : Int),
                          headers := headerSet reqStreamW.headers "Content-Length" "3" }) ∧
    headerGet (calculateHashOfBody shaW reqStreamW).2.headers "X-Content-SHA256" =
      base64Encode (shaW [10, 20, 30]) :=
  (getBodyHash_spec shaW reqStreamW).2 [10, 20, 30] rfl

/-- C5: body-hash round trip — for a request whose body is the byte
sequence `B`, `GetBodyHash` succeeds and leaves the request's body
yielding exactly `B` (no bytes lost, duplicated or reordered), and the
returned hash is base64 of the digest of `B`. -/
theorem body_hash_round_trip (sha : List Byte → List Byte) (r : HttpRequest)
    (B : List Byte) (h : r.body = Body.stream B) :
    (GetBodyHash sha r).2.body = Body.stream B ∧
    bodyReadAll (GetBodyHash sha r).2.body = B ∧
    (GetBodyHash sha r).1 = Except.ok (base64Encode (sha B)) := by
  rw [getBodyHash_stream sha r B h]
  exact ⟨rfl, rfl, rfl⟩

/-- Witness request for C5, body bytes [1, 2, 3, 4]. -/
def reqRoundW : HttpRequest :=
  { method := "PUT", urlHost := "example.com", urlRequestURI := "/v1/y",
    host := "", headers := [], body := Body.stream [1, 2, 3, 4],
    contentLength := 0 }

/-- Witness for C5: after hashing, reading `reqRoundW`'s body yields
exactly [1, 2, 3, 4]. -/
theorem body_hash_round_trip_witness :
    (GetBodyHash shaW reqRoundW).2.body = Body.stream [1, 2, 3, 4] ∧
    bodyReadAll (GetBodyHash shaW reqRoundW).2.body = [1, 2, 3, 4] ∧
    (GetBodyHash shaW reqRoundW).1 = Except.ok (base64Encode (shaW [1, 2, 3, 4])) :=
  body_hash_round_trip shaW reqRoundW [1, 2, 3, 4] rfl

/-- C6: a failed `Sign` performs no header mutation beyond the body-hash
step: whenever `Sign` returns an error (body-hash failure, key-retrieval
error, signing-computation error, or key-id error), the request it
leaves behind is exactly the request after step 1, so the
`Authorization` header is not set and no header written before the
failure point is changed. -/
theorem sign_failure_frame (sha : List Byte → List Byte)
    (rsaSign : RSAPrivateKey → List Byte → Except String (List Byte))
    (signer : ociRequestSigner) (r : HttpRequest) (e : String)
    (h : (Sign sha rsaSign signer r).1 = Outcome.error e) :
    (Sign sha rsaSign signer r).2 = (signStep1 sha signer r).2 ∧
    headerGet (Sign sha rsaSign signer r).2.headers "Authorization" =
      headerGet (signStep1 sha signer r).2.headers "Authorization" := by
  have h2 : (Sign sha rsaSign signer r).2 = (signStep1 sha signer r).2 := by
    rcases hs : signStep1 sha signer r with ⟨o, r1⟩
    cases o with
    | error e1 => simp [Sign, hs]
    | nilDeref => simp [Sign, hs]
    | ok u =>
      cases u
      cases hcs : computeSignature sha rsaSign signer r1 with
      | error e1 => simp [Sign, hs, hcs]
      | nilDeref => simp [Sign, hs, hcs]
      | ok sigv =>
        cases hkp : signer.KeyProvider with
        | none => simp [Sign, hs, hcs, hkp]
        | some kp =>
          cases hki : kp.keyID with
          | error e1 => simp [Sign, hs, hcs, hkp, hki]
          | ok kid =>
            exfalso
            simp [Sign, hs, hcs, hkp, hki] at h
  exact ⟨h2, by rw [h2]⟩

/-- Witness key provider whose key-id retrieval fails. -/
def kpNoIdW : KeyProvider :=
  { privateRSAKey := Except.ok (RSAPrivateKey.mk 3 5 7),
    keyID := Except.error "no key id", expirationTime := 42 }

/-- Witness identity RSA signer (external `rsa.SignPKCS1v15` stand-in). -/
def rsaIdW : RSAPrivateKey → List Byte → Except String (List Byte) :=
  fun _ digest => Except.ok digest

/-- Witness signer bound to the failing provider, body hashing off. -/
def signerNoIdW : ociRequestSigner :=
  { KeyProvider := some kpNoIdW, GenericHeaders := defaultGenericHeaders,
    BodyHeaders := defaultBodyHeaders, ShouldHashBody := fun _ => false }

/-- Witness GET request (host example.com, path /v1/x). -/
def reqGetW : HttpRequest :=
  { method := "GET", urlHost := "example.com", urlRequestURI := "/v1/x",
    host := "", headers := [("Date", "Thu, 05 Jan 2014 21:31:40 GMT")],
    body := Body.nil, contentLength := 0 }

/-- Witness for C6: with a provider whose key-id retrieval fails, `Sign`
errors and the request equals the request after step 1 (here: unchanged,
with no `Authorization` header). -/
theorem sign_failure_frame_witness :
    (Sign shaW rsaIdW signerNoIdW reqGetW).1 = Outcome.error "no key id" ∧
    (Sign shaW rsaIdW signerNoIdW reqGetW).2 =
      (signStep1 shaW signerNoIdW reqGetW).2 ∧
    headerGet (Sign shaW rsaIdW signerNoIdW reqGetW).2.headers "Authorization" =
      headerGet (signStep1 shaW signerNoIdW reqGetW).2.headers "Authorization" :=
  ⟨by decide,
   (sign_failure_frame shaW rsaIdW signerNoIdW reqGetW "no key id" (by decide)).1,
   (sign_failure_frame shaW rsaIdW signerNoIdW reqGetW "no key id" (by decide)).2⟩

/-- C10: `Sign` is total only when a Key Provider is bound.  For a signer
whose `KeyProvider` is nil, once the body-hash step has succeeded the
call dereferences the nil provider inside `computeSignature` — a panic
(`Outcome.nilDeref`), never the error-return path — while
`ExpirationTime` on the same signer handles the nil case and returns the
already-expired sentinel `now - 1`. -/
theorem sign_nil_keyProvider (sha : List Byte → List Byte)
    (rsaSign : RSAPrivateKey → List Byte → Except String (List Byte))
    (signer : ociRequestSigner) (r : HttpRequest) (now : Int)
    (hkp : signer.KeyProvider = none)
    (h1 : (signStep1 sha signer r).1 = Outcome.ok ()) :
    computeSignature sha rsaSign signer (signStep1 sha signer r).2 =
      Outcome.nilDeref ∧
    (Sign sha rsaSign signer r).1 = Outcome.nilDeref ∧
    (∀ e, (Sign sha rsaSign signer r).1 ≠ Outcome.error e) ∧
    ExpirationTime signer now = now - 1 := by
  have hcs : ∀ req, computeSignature sha rsaSign signer req = Outcome.nilDeref := by
    intro req
    simp [computeSignature, hkp]
  rcases hs : signStep1 sha signer r with ⟨o, r1⟩
  rw [hs] at h1
  simp only at h1
  subst h1
  have hsign : (Sign sha rsaSign signer r).1 = Outcome.nilDeref := by
    simp [Sign, hs, hcs r1]
  refine ⟨?_, hsign, ?_, ?_⟩
  · exact hcs _
  · intro e hcon
    rw [hsign] at hcon
    exact Outcome.noConfusion hcon
  · simp [ExpirationTime, hkp]

/-- Witness for C10: a signer with nil provider and body hashing off:
`Sign` panics on the nil dereference while `ExpirationTime` at time 5
returns 4. -/
theorem sign_nil_keyProvider_witness :
    computeSignature shaW rsaIdW signerNilW
      (signStep1 shaW signerNilW reqGetW).2 = Outcome.nilDeref ∧
    (Sign shaW rsaIdW signerNilW reqGetW).1 = Outcome.nilDeref ∧
    ExpirationTime signerNilW 5 = 4 :=
  ⟨(sign_nil_keyProvider shaW rsaIdW signerNilW reqGetW 5 rfl rfl).1,
   (sign_nil_keyProvider shaW rsaIdW signerNilW reqGetW 5 rfl rfl).2.1,
   (sign_nil_keyProvider shaW rsaIdW signerNilW reqGetW 5 rfl rfl).2.2.2⟩

/-- Each line of the canonical string produced by the source loop equals
the corresponding line of the reference construction. -/
theorem map_signingLine_eq_specLines (r : HttpRequest) (names : List String) :
    names.map (signingLine r) = specLines r names := by
  induction names with
  | nil => rfl
  | cons name rest ih =>
    simp only [List.map_cons, specLines, ih]
    congr 1
    unfold signingLine getRequestTarget
    by_cases h1 : lowerStr name = "(request-target)"
    · simp [h1]
    · by_cases h2 : lowerStr name = "host"
      · simp [h1, h2, string_length_eq_zero]
      · simp [h1, h2]

/-- C3: for every request and signer configuration, the canonical signing
string built by `getSigningString` equals the reference construction of
the spec: one line per signing header (generic headers, then body headers
iff the body-hash predicate holds), in configured order, names
lower-cased, lines joined by single newlines with no trailing newline,
with `(request-target)` and `host` special-cased and all other names
resolved case-insensitively with missing headers contributing the empty
value. -/
theorem signing_string_matches_reference (signer : ociRequestSigner)
    (r : HttpRequest) :
    getSigningString signer r = specCanonicalString signer r := by
  unfold getSigningString specCanonicalString getSigningHeaders
  by_cases h : signer.ShouldHashBody r
  · rw [if_pos h, if_pos h, map_signingLine_eq_specLines]
  · rw [if_neg h, if_neg h, List.append_nil, map_signingLine_eq_specLines]

/-- The `Authorization` value template `Sign` produces (source line 298):
`Signature version="1",headers="<names space-joined>",keyId="<kid>",algorithm="rsa-sha256",signature="<sig>"`. -/
def authHeaderValue (names : List String) (kid sigStr : String) : String :=
  "Signature version=\"1\",headers=\"" ++ String.intercalate " " names ++
    "\",keyId=\"" ++ kid ++ "\",algorithm=\"rsa-sha256\",signature=\"" ++
    sigStr ++ "\""

/-- Witness key provider with key id "ocid1.key". -/
def kpIdW : KeyProvider :=
  { privateRSAKey := Except.ok (RSAPrivateKey.mk 3 5 7),
    keyID := Except.ok "ocid1.key", expirationTime := 42 }

/-- A signer configured with an upper-case generic header name and body
hashing off. -/
def signerUpperW : ociRequestSigner :=
  { KeyProvider := some kpIdW, GenericHeaders := ["DATE"], BodyHeaders := [],
    ShouldHashBody := fun _ => false }

/-- Counterexample for C2: with the configured header name "DATE", the
successful `Sign` writes the configured spelling "DATE" into the
`headers="..."` component of the `Authorization` value — not the
lower-case "date" the claim requires — so the claim's byte-for-byte
template with lower-case header names does not hold for this signer. -/
theorem authorization_header_lowercase_counterexample :
    (Sign shaW rsaIdW signerUpperW reqGetW).1 = Outcome.ok () ∧
    headerGet (Sign shaW rsaIdW signerUpperW reqGetW).2.headers "Authorization" =
      "Signature version=\"1\",headers=\"DATE\",keyId=\"ocid1.key\",algorithm=\"rsa-sha256\",signature=\"Iw==\"" ∧
    headerGet (Sign shaW rsaIdW signerUpperW reqGetW).2.headers "Authorization" ≠
      "Signature version=\"1\",headers=\"date\",keyId=\"ocid1.key\",algorithm=\"rsa-sha256\",signature=\"Iw==\"" :=
  ⟨by decide, by decide, by decide⟩

/-- C2 (amended): on every successful `Sign`, the `Authorization` header
value is exactly
`Signature version="1",headers="<signing header names as configured,
space-separated, in configured order>",keyId="<keyId>",algorithm="rsa-sha256",signature="<base64 standard encoding of the RSA signature>"`,
with `version="1"` and `algorithm="rsa-sha256"` literal; the header
names appear in their configured spelling (they are lower-cased only
inside the canonical string, not in this component — all default header
sets are already lower-case). -/
theorem authorization_header_format (sha : List Byte → List Byte)
    (rsaSign : RSAPrivateKey → List Byte → Except String (List Byte))
    (signer : ociRequestSigner) (r r1 : HttpRequest) (kp : KeyProvider)
    (key : RSAPrivateKey) (kid : String) (sigBytes : List Byte)
    (hstep : signStep1 sha signer r = (Outcome.ok (), r1))
    (hkp : signer.KeyProvider = some kp)
    (hkey : kp.privateRSAKey = Except.ok key)
    (hsig : rsaSign key (sha (strBytes (getSigningString signer r1))) =
      Except.ok sigBytes)
    (hkid : kp.keyID = Except.ok kid) :
    Sign sha rsaSign signer r =
      (Outcome.ok (),
        { r1 with headers := (headerSet r1.headers "Authorization"
            (authHeaderValue (getSigningHeaders signer r1) kid (base64Encode sigBytes))) }) := by
  have hcs : computeSignature sha rsaSign signer r1 =
      Outcome.ok (base64Encode sigBytes) := by
    unfold computeSignature
    rw [hkp]
    simp [hkey, hsig]
  simp only [Sign, hstep, hcs, hkp, hkid, authHeaderValue]
  rfl

/-- Witness default signer (generic headers date, (request-target),
host; default body-hash predicate) bound to `kpIdW`. -/
def signerDefW : ociRequestSigner :=
  RequestSigner (some kpIdW) defaultGenericHeaders defaultBodyHeaders

/-- Witness for C2 (amended): a GET to host example.com path /v1/x with
the default generic headers — `Sign` succeeds and installs the exact
template value (here with the fixture digest and identity RSA signer). -/
theorem authorization_header_format_witness :
    Sign shaW rsaIdW signerDefW reqGetW =
      (Outcome.ok (),
        { reqGetW with headers := (headerSet reqGetW.headers "Authorization"
            (authHeaderValue (getSigningHeaders signerDefW reqGetW) "ocid1.key"
              (base64Encode (shaW (strBytes (getSigningString signerDefW reqGetW)))))) }) :=
  authorization_header_format shaW rsaIdW signerDefW reqGetW reqGetW kpIdW
    (RSAPrivateKey.mk 3 5 7) "ocid1.key"
    (shaW (strBytes (getSigningString signerDefW reqGetW)))
    rfl rfl rfl rfl rfl

/-- Two requests with the same content: equal method, URL host,
path-and-query, `Host` field, body and content length, and pointwise
equal (case-insensitive) header lookups — the observational equality Go
code sees through an `http.Request` (whose header map is unordered). -/
def ReqEquiv (r1 r2 : HttpRequest) : Prop :=
  r1.method = r2.method ∧ r1.urlHost = r2.urlHost ∧
  r1.urlRequestURI = r2.urlRequestURI ∧ r1.host = r2.host ∧
  r1.body = r2.body ∧ r1.contentLength = r2.contentLength ∧
  ∀ k, headerGet r1.headers k = headerGet r2.headers k

theorem reqEquiv_headerSet (q1 q2 : HttpRequest) (he : ReqEquiv q1 q2)
    (n v : String) :
    ReqEquiv { q1 with headers := headerSet q1.headers n v }
      { q2 with headers := headerSet q2.headers n v } := by
  obtain ⟨hm, hu, huri, hh, hb, hc, hhd⟩ := he
  refine ⟨hm, hu, huri, hh, hb, hc, ?_⟩
  intro k
  rw [headerGet_headerSet, headerGet_headerSet, hhd k]

theorem signingLine_congr (r1 r2 : HttpRequest) (he : ReqEquiv r1 r2)
    (part : String) : signingLine r1 part = signingLine r2 part := by
  obtain ⟨hm, hu, huri, hh, hb, hc, hhd⟩ := he
  unfold signingLine getRequestTarget
  rw [hm, hu, huri, hh]
  simp only [hhd]

theorem signingString_congr (signer : ociRequestSigner) (r1 r2 : HttpRequest)
    (hpe : signer.ShouldHashBody r1 = signer.ShouldHashBody r2)
    (he : ReqEquiv r1 r2) :
    getSigningString signer r1 = getSigningString signer r2 := by
  unfold getSigningString getSigningHeaders
  rw [hpe]
  congr 1
  induction (signer.GenericHeaders ++
      (if signer.ShouldHashBody r2 then signer.BodyHeaders else [])) with
  | nil => rfl
  | cons n rest ih => simp [signingLine_congr r1 r2 he n, ih]

theorem getSigningHeaders_congr (signer : ociRequestSigner)
    (r1 r2 : HttpRequest)
    (hpe : signer.ShouldHashBody r1 = signer.ShouldHashBody r2) :
    getSigningHeaders signer r1 = getSigningHeaders signer r2 := by
  unfold getSigningHeaders
  rw [hpe]

/-- `GetBodyHash` on a request with a `http.NoBody` body, fully
evaluated. -/
theorem getBodyHash_noBody (sha : List Byte → List Byte) (r : HttpRequest)
    (h : r.body = Body.noBody) :
    GetBodyHash sha r =
      (Except.ok (base64Encode (sha [])),
        { r with body := Body.noBody, contentLength := 0,
                 headers := headerSet r.headers "Content-Length" "0" }) := by
  unfold GetBodyHash
  rw [h]
  rfl

/-- `GetBodyHash` on a request whose body read fails: the error is
returned and the request is unchanged. -/
theorem getBodyHash_badStream (sha : List Byte → List Byte) (r : HttpRequest)
    (h : r.body = Body.badStream) :
    GetBodyHash sha r =
      (Except.error "can not read body of request while calculating body hash: read failure", r) := by
  unfold GetBodyHash
  rw [h]
  rfl

theorem getBodyHash_congr (sha : List Byte → List Byte) (r1 r2 : HttpRequest)
    (he : ReqEquiv r1 r2) :
    (GetBodyHash sha r1).1 = (GetBodyHash sha r2).1 ∧
    ReqEquiv (GetBodyHash sha r1).2 (GetBodyHash sha r2).2 := by
  obtain ⟨hm, hu, huri, hh, hb, hc, hhd⟩ := he
  cases hbody : r1.body with
  | nil =>
    have hb2 : r2.body = Body.nil := by rw [← hb, hbody]
    rw [getBodyHash_nil sha r1 hbody, getBodyHash_nil sha r2 hb2]
    refine ⟨rfl, hm, hu, huri, hh, hb, rfl, ?_⟩
    intro k
    rw [headerGet_headerSet, headerGet_headerSet, hhd k]
  | noBody =>
    have hb2 : r2.body = Body.noBody := by rw [← hb, hbody]
    rw [getBodyHash_noBody sha r1 hbody, getBodyHash_noBody sha r2 hb2]
    refine ⟨rfl, hm, hu, huri, hh, rfl, rfl, ?_⟩
    intro k
    rw [headerGet_headerSet, headerGet_headerSet, hhd k]
  | stream bs =>
    have hb2 : r2.body = Body.stream bs := by rw [← hb, hbody]
    rw [getBodyHash_stream sha r1 bs hbody, getBodyHash_stream sha r2 bs hb2]
    refine ⟨rfl, hm, hu, huri, hh, rfl, rfl, ?_⟩
    intro k
    rw [headerGet_headerSet, headerGet_headerSet, hhd k]
  | badStream =>
    have hb2 : r2.body = Body.badStream := by rw [← hb, hbody]
    rw [getBodyHash_badStream sha r1 hbody, getBodyHash_badStream sha r2 hb2]
    exact ⟨rfl, hm, hu, huri, hh, hb, hc, hhd⟩

theorem calculateHashOfBody_congr (sha : List Byte → List Byte)
    (r1 r2 : HttpRequest) (he : ReqEquiv r1 r2) :
    (calculateHashOfBody sha r1).1 = (calculateHashOfBody sha r2).1 ∧
    ReqEquiv (calculateHashOfBody sha r1).2 (calculateHashOfBody sha r2).2 := by
  obtain ⟨h1, he2⟩ := getBodyHash_congr sha r1 r2 he
  rcases hg1 : GetBodyHash sha r1 with ⟨o1, q1⟩
  rcases hg2 : GetBodyHash sha r2 with ⟨o2, q2⟩
  rw [hg1, hg2] at h1 he2
  simp only at h1
  subst h1
  unfold calculateHashOfBody
  rw [hg1, hg2]
  cases o1 with
  | error e => exact ⟨rfl, he2⟩
  | ok hv => exact ⟨rfl, reqEquiv_headerSet q1 q2 he2 "X-Content-SHA256" hv⟩

theorem signStep1_congr (sha : List Byte → List Byte)
    (signer : ociRequestSigner) (r1 r2 : HttpRequest)
    (hpe : signer.ShouldHashBody r1 = signer.ShouldHashBody r2)
    (he : ReqEquiv r1 r2) :
    (signStep1 sha signer r1).1 = (signStep1 sha signer r2).1 ∧
    ReqEquiv (signStep1 sha signer r1).2 (signStep1 sha signer r2).2 := by
  cases hsb : signer.ShouldHashBody r1 with
  | false =>
    have hsb2 : signer.ShouldHashBody r2 = false := by rw [← hpe, hsb]
    simp only [signStep1, hsb, hsb2, Bool.false_eq_true, if_false]
    exact ⟨by trivial, he⟩
  | true =>
    have hsb2 : signer.ShouldHashBody r2 = true := by rw [← hpe, hsb]
    simp only [signStep1, hsb, hsb2, if_true]
    obtain ⟨h1, he2⟩ := calculateHashOfBody_congr sha r1 r2 he
    rcases hc1 : calculateHashOfBody sha r1 with ⟨o1, q1⟩
    rcases hc2 : calculateHashOfBody sha r2 with ⟨o2, q2⟩
    rw [hc1, hc2] at h1 he2
    simp only at h1
    subst h1
    cases o1 with
    | error e => exact ⟨rfl, he2⟩
    | ok u => exact ⟨rfl, he2⟩

theorem computeSignature_congr (sha : List Byte → List Byte)
    (rsaSign : RSAPrivateKey → List Byte → Except String (List Byte))
    (signer : ociRequestSigner) (r1 r2 : HttpRequest)
    (hss : getSigningString signer r1 = getSigningString signer r2) :
    computeSignature sha rsaSign signer r1 =
      computeSignature sha rsaSign signer r2 := by
  unfold computeSignature
  rw [hss]

/-- The default body-hash predicate only observes the method and a
(case-insensitive) header lookup, so it is invariant under request
content equivalence: the congruence hypothesis of the determinism
theorem holds for every default signer configuration. -/
theorem defaultBodyHashPredicate_congr (a b : HttpRequest)
    (he : ReqEquiv a b) :
    defaultBodyHashPredicate a = defaultBodyHashPredicate b := by
  obtain ⟨hm, _, _, _, _, _, hhd⟩ := he
  unfold defaultBodyHashPredicate
  rw [hm, hhd]

/-- C8: signing is deterministic.  For two requests with the same content
(same method, URL, headers as a map, body) and the same signer
configuration and credential snapshot — with the configured body-hash
predicate observing only request content, as all predicates defined by
the source do — the canonical signing strings are byte-identical, `Sign`
produces the same outcome, and the resulting `Authorization` header
values are identical.  (`sha` and `rsaSign` are fixed deterministic
functions: SHA-256 is a pure function and RSA PKCS#1 v1.5 signatures are
deterministic.) -/
theorem sign_deterministic (sha : List Byte → List Byte)
    (rsaSign : RSAPrivateKey → List Byte → Except String (List Byte))
    (signer : ociRequestSigner) (r1 r2 : HttpRequest)
    (hp : ∀ a b, ReqEquiv a b →
      signer.ShouldHashBody a = signer.ShouldHashBody b)
    (he : ReqEquiv r1 r2) :
    getSigningString signer r1 = getSigningString signer r2 ∧
    (Sign sha rsaSign signer r1).1 = (Sign sha rsaSign signer r2).1 ∧
    headerGet (Sign sha rsaSign signer r1).2.headers "Authorization" =
      headerGet (Sign sha rsaSign signer r2).2.headers "Authorization" := by
  refine ⟨signingString_congr signer r1 r2 (hp r1 r2 he) he, ?_⟩
  obtain ⟨ho, he1⟩ := signStep1_congr sha signer r1 r2 (hp r1 r2 he) he
  rcases hs1 : signStep1 sha signer r1 with ⟨o1, q1⟩
  rcases hs2 : signStep1 sha signer r2 with ⟨o2, q2⟩
  rw [hs1, hs2] at ho he1
  simp only at ho
  subst ho
  have hq : ∀ k, headerGet q1.headers k = headerGet q2.headers k := he1.2.2.2.2.2.2
  cases o1 with
  | error e => exact ⟨by simp [Sign, hs1, hs2], by simp [Sign, hs1, hs2, hq]⟩
  | nilDeref => exact ⟨by simp [Sign, hs1, hs2], by simp [Sign, hs1, hs2, hq]⟩
  | ok u =>
    cases u
    have hss2 : getSigningString signer q1 = getSigningString signer q2 :=
      signingString_congr signer q1 q2 (hp q1 q2 he1) he1
    have hcs : computeSignature sha rsaSign signer q1 =
        computeSignature sha rsaSign signer q2 :=
      computeSignature_congr sha rsaSign signer q1 q2 hss2
    have hgh : getSigningHeaders signer q1 = getSigningHeaders signer q2 :=
      getSigningHeaders_congr signer q1 q2 (hp q1 q2 he1)
    cases hc1 : computeSignature sha rsaSign signer q1 with
    | error e =>
      have hc2 : computeSignature sha rsaSign signer q2 = Outcome.error e := by
        rw [← hcs, hc1]
      exact ⟨by simp [Sign, hs1, hs2, hc1, hc2],
             by simp [Sign, hs1, hs2, hc1, hc2, hq]⟩
    | nilDeref =>
      have hc2 : computeSignature sha rsaSign signer q2 = Outcome.nilDeref := by
        rw [← hcs, hc1]
      exact ⟨by simp [Sign, hs1, hs2, hc1, hc2],
             by simp [Sign, hs1, hs2, hc1, hc2, hq]⟩
    | ok sigv =>
      have hc2 : computeSignature sha rsaSign signer q2 = Outcome.ok sigv := by
        rw [← hcs, hc1]
      cases hkp : signer.KeyProvider with
      | none =>
        exact ⟨by simp [Sign, hs1, hs2, hc1, hc2, hkp],
               by simp [Sign, hs1, hs2, hc1, hc2, hkp, hq]⟩
      | some kp =>
        cases hki : kp.keyID with
        | error e =>
          exact ⟨by simp [Sign, hs1, hs2, hc1, hc2, hkp, hki],
                 by simp [Sign, hs1, hs2, hc1, hc2, hkp, hki, hq]⟩
        | ok kid =>
          constructor
          · simp [Sign, hs1, hs2, hc1, hc2, hkp, hki]
          · simp only [Sign, hs1, hs2, hc1, hc2, hkp, hki]
            rw [hgh]
            rw [headerGet_headerSet_same, headerGet_headerSet_same]

/-- Witness request with headers in one storage order. -/
def reqHdrAW : HttpRequest :=
  { method := "GET", urlHost := "example.com", urlRequestURI := "/v1/x",
    host := "", headers := [("Date", "D1"), ("Accept", "*")],
    body := Body.nil, contentLength := 0 }

/-- Witness request with the same headers stored in the other order. -/
def reqHdrBW : HttpRequest :=
  { method := "GET", urlHost := "example.com", urlRequestURI := "/v1/x",
    host := "", headers := [("Accept", "*"), ("Date", "D1")],
    body := Body.nil, contentLength := 0 }

/-- The two witness header lists agree as (case-insensitive) lookup
maps. -/
theorem headersAgreeW :
    ∀ k, headerGet reqHdrAW.headers k = headerGet reqHdrBW.headers k := by
  intro k
  show headerGet [("Date", "D1"), ("Accept", "*")] k =
    headerGet [("Accept", "*"), ("Date", "D1")] k
  simp only [headerGet]
  by_cases h1 : lowerStr "Date" = lowerStr k
  · have h2 : ¬ lowerStr "Accept" = lowerStr k := by
      rw [← h1]
      decide
    simp [h1, h2]
  · by_cases h2 : lowerStr "Accept" = lowerStr k
    · simp [h1, h2]
    · simp [h1, h2]

/-- Witness for C8: the default signer over the two equal-content
requests (headers stored in different orders) yields identical canonical
strings, outcomes, and `Authorization` values. -/
theorem sign_deterministic_witness :
    getSigningString signerDefW reqHdrAW = getSigningString signerDefW reqHdrBW ∧
    (Sign shaW rsaIdW signerDefW reqHdrAW).1 =
      (Sign shaW rsaIdW signerDefW reqHdrBW).1 ∧
    headerGet (Sign shaW rsaIdW signerDefW reqHdrAW).2.headers "Authorization" =
      headerGet (Sign shaW rsaIdW signerDefW reqHdrBW).2.headers "Authorization" :=
  sign_deterministic shaW rsaIdW signerDefW reqHdrAW reqHdrBW
    (fun a b h => defaultBodyHashPredicate_congr a b h)
    ⟨rfl, rfl, rfl, rfl, rfl, rfl, headersAgreeW⟩

end IAM
